import Mathlib

/-!
# Verification of the finance-tracker aggregation and filtering engine

Shallow embedding of `src/finance_tracker.py`.

Modelling conventions:

* A Python `datetime` produced by `datetime.strptime(_, "%Y-%m-%d")` always has a
  zero time component, so a transaction date is a plain calendar date
  `(year, month, day)`; `datetime` comparison is lexicographic on these fields.
* Monetary amounts are integer cents.  The file-reading boundary rounds every
  amount to two decimals (`round(float(line[2]), 2)` in `Storage.read_transaction`)
  and the spec's data model prescribes 2-decimal precision semantics, so cents
  are exact; Python's `f"{x:.2f}"` formatting of such a value is modelled by
  `formatCents`.
* Python `dict`s keyed by month tuples / categories are association lists in
  first-insertion order with unique keys; `dict(sorted(d.items()))` is a stable
  sort of that association list by key (keys are unique, so comparing keys only
  agrees with Python's full-tuple comparison).  Python's stable `sorted` is
  modelled by Mathlib's stable `List.insertionSort`.
* Fallible operations (the filters, which call `datetime.strptime` on their
  string arguments) return `Except Unit _`; a raised `ValueError` is `.error ()`.
-/

/-- A calendar date, the content of a `datetime` parsed with format `%Y-%m-%d`. -/
structure Date where
  year : Nat
  month : Nat
  day : Nat
deriving DecidableEq

/-- `datetime` ordering: lexicographic on (year, month, day) (time is always 0). -/
def dateLe (a b : Date) : Prop :=
  a.year < b.year ∨ (a.year = b.year ∧
    (a.month < b.month ∨ (a.month = b.month ∧ a.day ≤ b.day)))

/-- Strict `datetime` ordering. -/
def dateLt (a b : Date) : Prop :=
  a.year < b.year ∨ (a.year = b.year ∧
    (a.month < b.month ∨ (a.month = b.month ∧ a.day < b.day)))

instance : DecidableRel dateLe := fun a b =>
  if h : a.year < b.year ∨ (a.year = b.year ∧
      (a.month < b.month ∨ (a.month = b.month ∧ a.day ≤ b.day))) then
    .isTrue h else .isFalse h

instance : DecidableRel dateLt := fun a b =>
  if h : a.year < b.year ∨ (a.year = b.year ∧
      (a.month < b.month ∨ (a.month = b.month ∧ a.day < b.day))) then
    .isTrue h else .isFalse h

theorem dateLe_total (a b : Date) : dateLe a b ∨ dateLe b a := by
  unfold dateLe; omega

theorem dateLe_trans {a b c : Date} (h1 : dateLe a b) (h2 : dateLe b c) : dateLe a c := by
  unfold dateLe at *; omega

theorem dateLt_iff_not_le {a b : Date} : dateLt a b ↔ ¬ dateLe b a := by
  unfold dateLt dateLe; omega

/-- One ledger entry, as built by `Transaction.__init__` (the date already
parsed, the transaction type already stripped and lower-cased by the
constructor, the category stored verbatim). -/
structure Transaction where
  date : Date
  txn_type : String
  amount : Int
  category : String
deriving DecidableEq

/-- Date order on transactions, the `key=lambda txn: txn.date` sort key. -/
def txnDateLe (a b : Transaction) : Prop := dateLe a.date b.date

instance : DecidableRel txnDateLe := fun a b =>
  inferInstanceAs (Decidable (dateLe a.date b.date))

instance : IsTotal Transaction txnDateLe := ⟨fun a b => dateLe_total a.date b.date⟩

instance : IsTrans Transaction txnDateLe := ⟨fun _ _ _ => dateLe_trans⟩

/-- Python's `f"{x:.2f}"` on an exact 2-decimal value held as integer cents. -/
def formatCents (n : Int) : String :=
  (if n < 0 then "-" else "") ++ toString (n.natAbs / 100) ++ "." ++
    (if n.natAbs % 100 < 10 then "0" else "") ++ toString (n.natAbs % 100)

/-- `FinanceTracker` holds just its list of transactions (`self.transactions`),
so the methods are modelled as functions on that list. -/
abbrev FinanceTracker : Type := List Transaction

/-- `FinanceTracker.add_transaction`: append to the list. -/
def add_transaction (txns : FinanceTracker) (t : Transaction) : FinanceTracker :=
  txns ++ [t]

/-- `FinanceTracker.calc_current_balance`: one pass accumulating income and
expense separately, then format the difference. -/
def calc_current_balance (txns : FinanceTracker) : String :=
  let p := txns.foldl
    (fun (p : Int × Int) t =>
      if t.txn_type = "income" then (p.1 + t.amount, p.2)
      else if t.txn_type = "expense" then (p.1, p.2 + t.amount)
      else p)
    (0, 0)
  formatCents (p.1 - p.2)

/-- `FinanceTracker.get_total_income`. -/
def get_total_income (txns : FinanceTracker) : String :=
  formatCents (txns.foldl
    (fun acc t => if t.txn_type = "income" then acc + t.amount else acc) 0)

/-- `FinanceTracker.get_total_expenses`. -/
def get_total_expenses (txns : FinanceTracker) : String :=
  formatCents (txns.foldl
    (fun acc t => if t.txn_type = "expense" then acc + t.amount else acc) 0)

/-- `FinanceTracker.category_filter`: loop appending transactions whose
category equals the argument exactly. -/
def category_filter (txns : FinanceTracker) (category : String) : List Transaction :=
  txns.foldl (fun acc t => if t.category = category then acc ++ [t] else acc) []

/-- Split a character list on `'-'`. -/
def splitDashes : List Char → List (List Char)
  | [] => [[]]
  | c :: cs =>
    if c = '-' then [] :: splitDashes cs
    else
      match splitDashes cs with
      | [] => [[c]]
      | p :: ps => (c :: p) :: ps

/-- Read a non-empty all-digit character list as a number. -/
def digitsToNat : List Char → Option Nat
  | [] => none
  | cs =>
    if cs.all Char.isDigit then
      some (cs.foldl (fun acc c => acc * 10 + (c.toNat - '0'.toNat)) 0)
    else none

/-- Days in a month, with the Gregorian leap-year rule (as `datetime` checks). -/
def daysInMonth (y m : Nat) : Nat :=
  if m = 2 then
    if y % 4 = 0 ∧ (y % 100 ≠ 0 ∨ y % 400 = 0) then 29 else 28
  else if m = 4 ∨ m = 6 ∨ m = 9 ∨ m = 11 then 30
  else 31

/-- `datetime.strptime(s, "%Y-%m-%d")`: three dash-separated digit groups,
month in 1..12, day valid for the month; `none` models a raised `ValueError`. -/
def parseDate (s : String) : Option Date :=
  match splitDashes s.data with
  | [ys, ms, ds] =>
    match digitsToNat ys, digitsToNat ms, digitsToNat ds with
    | some y, some m, some d =>
      if 1 ≤ m ∧ m ≤ 12 ∧ 1 ≤ d ∧ d ≤ daysInMonth y m then some ⟨y, m, d⟩
      else none
    | _, _, _ => none
  | _ => none

/-- The per-transaction test of `date_filter` / `_date_filter_by_type` /
`date_category_filter`: parse the argument strings (raising on a malformed
one, i.e. `.error ()`) and test the transaction's date; a single date means
exact-day equality, a pair means an inclusive range. -/
def dateMatchE (date1 : String) (date2 : Option String) (t : Transaction) :
    Except Unit Bool :=
  match date2 with
  | none =>
    match parseDate date1 with
    | some d => .ok (decide (t.date = d))
    | none => .error ()
  | some s2 =>
    match parseDate date1, parseDate s2 with
    | some dstart, some dend =>
        .ok (decide (dateLe dstart t.date) && decide (dateLe t.date dend))
    | _, _ => .error ()

/-- The filtering loops of `date_filter`, `_date_filter_by_type` and
`date_category_filter`, with the guard `g` applied before any date string is
parsed (in `date_filter` the guard is trivially true and every iteration
parses; in the type/category variants a transaction failing the guard skips
the parse entirely, exactly as in the Python loop nesting). -/
def dateGuardAux (g : Transaction → Bool) (date1 : String) (date2 : Option String) :
    List Transaction → Except Unit (List Transaction)
  | [] => .ok []
  | t :: ts =>
    if g t then
      match dateMatchE date1 date2 t with
      | .error e => .error e
      | .ok b =>
        match dateGuardAux g date1 date2 ts with
        | .error e => .error e
        | .ok rest => .ok (if b then t :: rest else rest)
    else dateGuardAux g date1 date2 ts

/-- `FinanceTracker.date_filter`: filter by exact day or inclusive range, then
sort ascending by date (`sorted(..., key=lambda txn: txn.date)`). -/
def date_filter (txns : FinanceTracker) (date1 : String) (date2 : Option String) :
    Except Unit (List Transaction) :=
  (dateGuardAux (fun _ => true) date1 date2 txns).map (List.insertionSort txnDateLe)

/-- `FinanceTracker._date_filter_by_type` (Lean name without the underscore):
like `date_filter` but restricted to one transaction type, the type test
guarding the date parse. -/
def date_filter_by_type (txns : FinanceTracker) (date1 : String)
    (date2 : Option String) (filt : String) : Except Unit (List Transaction) :=
  (dateGuardAux (fun t => t.txn_type = filt) date1 date2 txns).map
    (List.insertionSort txnDateLe)

/-- `FinanceTracker.date_income_filter`. -/
def date_income_filter (txns : FinanceTracker) (date1 : String)
    (date2 : Option String) : Except Unit (List Transaction) :=
  date_filter_by_type txns date1 date2 "income"

/-- `FinanceTracker.date_expense_filter`. -/
def date_expense_filter (txns : FinanceTracker) (date1 : String)
    (date2 : Option String) : Except Unit (List Transaction) :=
  date_filter_by_type txns date1 date2 "expense"

/-- `FinanceTracker.date_category_filter`: the category test guards the
date parse. -/
def date_category_filter (txns : FinanceTracker) (date1 : String)
    (date2 : Option String) (category : String) : Except Unit (List Transaction) :=
  (dateGuardAux (fun t => t.category = category) date1 date2 txns).map
    (List.insertionSort txnDateLe)

/-- Lexicographic order on `(year, month)` grouping keys, the order Python
uses to compare the month tuples. -/
def monthKeyLe (a b : Nat × Nat) : Prop :=
  a.1 < b.1 ∨ (a.1 = b.1 ∧ a.2 ≤ b.2)

/-- Strict lexicographic order on `(year, month)` keys. -/
def monthKeyLt (a b : Nat × Nat) : Prop :=
  a.1 < b.1 ∨ (a.1 = b.1 ∧ a.2 < b.2)

instance : DecidableRel monthKeyLe := fun a b =>
  if h : a.1 < b.1 ∨ (a.1 = b.1 ∧ a.2 ≤ b.2) then .isTrue h else .isFalse h

instance : DecidableRel monthKeyLt := fun a b =>
  if h : a.1 < b.1 ∨ (a.1 = b.1 ∧ a.2 < b.2) then .isTrue h else .isFalse h

/-- Order on `((year, month), total)` entries by key; with unique keys this is
the order `sorted(months_dict.items())` produces. -/
def monthEntryLe (a b : (Nat × Nat) × Int) : Prop := monthKeyLe a.1 b.1

instance : DecidableRel monthEntryLe := fun a b =>
  inferInstanceAs (Decidable (monthKeyLe a.1 b.1))

instance : IsTotal ((Nat × Nat) × Int) monthEntryLe :=
  ⟨fun a b => by unfold monthEntryLe monthKeyLe; omega⟩

instance : IsTrans ((Nat × Nat) × Int) monthEntryLe :=
  ⟨fun a b c h1 h2 => by unfold monthEntryLe monthKeyLe at *; omega⟩

/-- Order on `(category, total)` entries by key; with unique keys this is the
order `sorted(txn_dict.items())` produces (Python string order, i.e.
code-point lexicographic). -/
def catEntryLe (a b : String × Int) : Prop := a.1 ≤ b.1

instance : DecidableRel catEntryLe := fun a b =>
  inferInstanceAs (Decidable (a.1 ≤ b.1))

instance : IsTotal (String × Int) catEntryLe :=
  ⟨fun a b => le_total a.1 b.1⟩

instance : IsTrans (String × Int) catEntryLe :=
  ⟨fun _ _ _ h1 h2 => le_trans h1 h2⟩

/-- Order on `((year, month), category)` composite keys, Python's comparison
of those nested tuples. -/
def monthCatKeyLe (a b : (Nat × Nat) × String) : Prop :=
  monthKeyLt a.1 b.1 ∨ (a.1 = b.1 ∧ a.2 ≤ b.2)

instance : DecidableRel monthCatKeyLe := fun a b =>
  inferInstanceAs (Decidable (monthKeyLt a.1 b.1 ∨ (a.1 = b.1 ∧ a.2 ≤ b.2)))

/-- Order on `(((year, month), category), total)` entries by composite key. -/
def monthCatEntryLe (a b : ((Nat × Nat) × String) × Int) : Prop :=
  monthCatKeyLe a.1 b.1

instance : DecidableRel monthCatEntryLe := fun a b =>
  inferInstanceAs (Decidable (monthCatKeyLe a.1 b.1))

theorem monthKeyLt_trichotomy (a b : Nat × Nat) :
    monthKeyLt a b ∨ a = b ∨ monthKeyLt b a := by
  rcases a with ⟨x, y⟩; rcases b with ⟨z, w⟩
  unfold monthKeyLt
  simp only [Prod.mk.injEq]
  omega

theorem monthKeyLt_trans {a b c : Nat × Nat} (h1 : monthKeyLt a b)
    (h2 : monthKeyLt b c) : monthKeyLt a c := by
  unfold monthKeyLt at *; omega

instance : IsTotal (((Nat × Nat) × String) × Int) monthCatEntryLe :=
  ⟨fun a b => by
    unfold monthCatEntryLe monthCatKeyLe
    rcases monthKeyLt_trichotomy a.1.1 b.1.1 with h | h | h
    · exact Or.inl (Or.inl h)
    · rcases le_total a.1.2 b.1.2 with hs | hs
      · exact Or.inl (Or.inr ⟨h, hs⟩)
      · exact Or.inr (Or.inr ⟨h.symm, hs⟩)
    · exact Or.inr (Or.inl h)⟩

instance : IsTrans (((Nat × Nat) × String) × Int) monthCatEntryLe :=
  ⟨fun a b c h1 h2 => by
    unfold monthCatEntryLe monthCatKeyLe at *
    rcases h1 with h1 | ⟨e1, s1⟩ <;> rcases h2 with h2 | ⟨e2, s2⟩
    · exact Or.inl (monthKeyLt_trans h1 h2)
    · exact Or.inl (e2 ▸ h1)
    · exact Or.inl (by rw [e1]; exact h2)
    · exact Or.inr ⟨e1.trans e2, le_trans s1 s2⟩⟩

/-- Python `dict` update `d[k] = d.get(k, 0) + v` on an association list in
insertion order: add to the entry in place if the key exists, else append. -/
def addToGroup {κ : Type} [DecidableEq κ] :
    List (κ × Int) → κ → Int → List (κ × Int)
  | [], k, v => [(k, v)]
  | (k', v') :: rest, k, v =>
    if k' = k then (k', v' + v) :: rest
    else (k', v') :: addToGroup rest k v

/-- One iteration of the grouping loops: if `f` accepts the transaction,
merge its key/amount contribution into the dict. -/
def groupStep {κ : Type} [DecidableEq κ] (f : Transaction → Option (κ × Int))
    (acc : List (κ × Int)) (t : Transaction) : List (κ × Int) :=
  match f t with
  | some (k, v) => addToGroup acc k v
  | none => acc

/-- The grouping loop common to `_monthly_basis`, `_monthly_categories_basis`
and `_totals_each_txn_type_category`: fold over the transactions, and for each
one that `f` accepts, merge its key/amount contribution into the dict. -/
def groupFold {κ : Type} [DecidableEq κ] (f : Transaction → Option (κ × Int))
    (txns : List Transaction) : List (κ × Int) :=
  txns.foldl (groupStep f) []

/-- `ReportingAndAnalysis._monthly_basis` (Lean name without the underscore),
on an already-synced transaction list: group the transactions of the given
type by `(year, month)`, summing amounts, then `dict(sorted(...))`. -/
def monthly_basis (txns : List Transaction) (txn_type : String) :
    List ((Nat × Nat) × Int) :=
  List.insertionSort monthEntryLe
    (groupFold (fun t =>
      if t.txn_type = txn_type then some ((t.date.year, t.date.month), t.amount)
      else none) txns)

/-- `ReportingAndAnalysis.monthly_income`. -/
def monthly_income (txns : List Transaction) : List ((Nat × Nat) × Int) :=
  monthly_basis txns "income"

/-- `ReportingAndAnalysis.monthly_expenses`. -/
def monthly_expenses (txns : List Transaction) : List ((Nat × Nat) × Int) :=
  monthly_basis txns "expense"

/-- Association-list lookup, Python's `d[k]` / the inner matching loop of
`monthly_net_savings` (the expense dict has unique keys, so scanning it for
the matching key tuple is exactly a lookup). -/
def lookupKey {κ β : Type} [DecidableEq κ] (k : κ) : List (κ × β) → Option β
  | [] => none
  | (k', v) :: rest => if k' = k then some v else lookupKey k rest

/-- One iteration of the `monthly_net_savings` outer loop over an income
entry: the inner loop over the expense dict assigns `income - expense` when it
finds the equal key (the expense dict's keys are unique, so the scan is a
lookup and the assignment happens at most once, appending the key in income
order). -/
def netStep (exp : List ((Nat × Nat) × Int)) (acc : List ((Nat × Nat) × Int))
    (p : (Nat × Nat) × Int) : List ((Nat × Nat) × Int) :=
  match lookupKey p.1 exp with
  | some ev => acc ++ [(p.1, p.2 - ev)]
  | none => acc

/-- `ReportingAndAnalysis.monthly_net_savings`: iterate over the income dict
in order; every key also present in the expense dict contributes
`income - expense`; then `dict(sorted(...))`. -/
def monthly_net_savings (txns : List Transaction) : List ((Nat × Nat) × Int) :=
  List.insertionSort monthEntryLe
    ((monthly_income txns).foldl (netStep (monthly_expenses txns)) [])

/-- `ReportingAndAnalysis._monthly_categories_basis` (Lean name without the
underscore): group by `((year, month), category)`, summing amounts, sorted. -/
def monthly_categories_basis (txns : List Transaction) (txn_type : String) :
    List (((Nat × Nat) × String) × Int) :=
  List.insertionSort monthCatEntryLe
    (groupFold (fun t =>
      if t.txn_type = txn_type then
        some (((t.date.year, t.date.month), t.category), t.amount)
      else none) txns)

/-- `ReportingAndAnalysis.monthly_income_categories`. -/
def monthly_income_categories (txns : List Transaction) :
    List (((Nat × Nat) × String) × Int) :=
  monthly_categories_basis txns "income"

/-- `ReportingAndAnalysis.monthly_expenses_categories`. -/
def monthly_expenses_categories (txns : List Transaction) :
    List (((Nat × Nat) × String) × Int) :=
  monthly_categories_basis txns "expense"

/-- `ReportingAndAnalysis._totals_each_txn_type_category` (Lean name without
the underscore): group by category, summing amounts, sorted by category. -/
def totals_each_txn_type_category (txns : List Transaction) (txn_type : String) :
    List (String × Int) :=
  List.insertionSort catEntryLe
    (groupFold (fun t =>
      if t.txn_type = txn_type then some (t.category, t.amount) else none) txns)

/-- `ReportingAndAnalysis.totals_each_income_category`. -/
def totals_each_income_category (txns : List Transaction) : List (String × Int) :=
  totals_each_txn_type_category txns "income"

/-- `ReportingAndAnalysis.totals_each_expense_category`. -/
def totals_each_expense_category (txns : List Transaction) : List (String × Int) :=
  totals_each_txn_type_category txns "expense"

/-- The state of a `ReportingAndAnalysis` instance.  `fileTxns` stands for the
transaction list `Storage.read_transaction(self.filename)` would load (file
I/O is the external collaborator; the parsed content is what matters to the
core). -/
structure Report where
  filename : String
  tracker : FinanceTracker
  use_file : Bool
  fileTxns : List Transaction

/-- `ReportingAndAnalysis._sync_transactions` (Lean name without the
underscore): when `use_file` is set, replace the tracker's transactions with
the file's content; otherwise do nothing. -/
def Report.sync (r : Report) : Report :=
  if r.use_file then { r with tracker := r.fileTxns } else r

/-- `_monthly_basis` as a method: sync, then aggregate; returns the value and
the post-call state. -/
def Report.monthly_basisM (r : Report) (txn_type : String) :
    List ((Nat × Nat) × Int) × Report :=
  (monthly_basis r.sync.tracker txn_type, r.sync)

/-- `monthly_income` as a method. -/
def Report.monthly_incomeM (r : Report) : List ((Nat × Nat) × Int) × Report :=
  r.monthly_basisM "income"

/-- `monthly_expenses` as a method. -/
def Report.monthly_expensesM (r : Report) : List ((Nat × Nat) × Int) × Report :=
  r.monthly_basisM "expense"

/-- `monthly_net_savings` as a method: it calls `monthly_income` and
`monthly_expenses`, each of which syncs (`sync` is idempotent, so the
post-call state is one sync of the initial state). -/
def Report.monthly_net_savingsM (r : Report) : List ((Nat × Nat) × Int) × Report :=
  (monthly_net_savings r.sync.tracker, r.sync)

/-- `_monthly_categories_basis` as a method. -/
def Report.monthly_categories_basisM (r : Report) (txn_type : String) :
    List (((Nat × Nat) × String) × Int) × Report :=
  (monthly_categories_basis r.sync.tracker txn_type, r.sync)

/-- `monthly_income_categories` as a method. -/
def Report.monthly_income_categoriesM (r : Report) :
    List (((Nat × Nat) × String) × Int) × Report :=
  r.monthly_categories_basisM "income"

/-- `monthly_expenses_categories` as a method. -/
def Report.monthly_expenses_categoriesM (r : Report) :
    List (((Nat × Nat) × String) × Int) × Report :=
  r.monthly_categories_basisM "expense"

/-- `_totals_each_txn_type_category` as a method. -/
def Report.totals_each_txn_type_categoryM (r : Report) (txn_type : String) :
    List (String × Int) × Report :=
  (totals_each_txn_type_category r.sync.tracker txn_type, r.sync)

/-- `totals_each_income_category` as a method. -/
def Report.totals_each_income_categoryM (r : Report) : List (String × Int) × Report :=
  r.totals_each_txn_type_categoryM "income"

/-- `totals_each_expense_category` as a method. -/
def Report.totals_each_expense_categoryM (r : Report) : List (String × Int) × Report :=
  r.totals_each_txn_type_categoryM "expense"

/-- One cell of a report row.  `Cell.str` is a string cell; `Cell.num n` is a
raw numeric value (in cents) written unformatted, abstracting the `csv`
module's serialization of a Python number. -/
inductive Cell where
  | str : String → Cell
  | num : Int → Cell
deriving DecidableEq

/-- `calendar.month_name[m]` for `m` in 1..12 (`""` outside that range, as
Python's `month_name[0]` is). -/
def monthName (m : Nat) : String :=
  match m with
  | 1 => "January" | 2 => "February" | 3 => "March" | 4 => "April"
  | 5 => "May" | 6 => "June" | 7 => "July" | 8 => "August"
  | 9 => "September" | 10 => "October" | 11 => "November" | 12 => "December"
  | _ => ""

/-- The month label `f"{calendar.month_name[tuple_month]} {tuple_year}"`. -/
def monthLabel (k : Nat × Nat) : String :=
  monthName k.2 ++ " " ++ toString k.1

/-- `ReportingAndAnalysis.export_analysis`: the sequence of rows written to
`analysis.tsv` (the file itself is the output sink; each `writerow` call is
one list element, in program order). -/
def export_analysis_rows (r : Report) : List (List Cell) :=
  let txns := r.sync.tracker
  [[.str "Current Balance:", .str (calc_current_balance txns)],
   [.str "Total Income:", .str (get_total_income txns)],
   [.str "Total Expenses:", .str (get_total_expenses txns)],
   [],
   [.str "Monthly Net Savings"]] ++
  (monthly_net_savings txns).map
    (fun p => [.str (monthLabel p.1 ++ ":"), .num p.2]) ++
  [[], [.str "Monthly Income"]] ++
  (monthly_income txns).map
    (fun p => [.str (monthLabel p.1 ++ ":"), .num p.2]) ++
  [[], [.str "Monthly Expenses"]] ++
  (monthly_expenses txns).map
    (fun p => [.str (monthLabel p.1), .num p.2]) ++
  [[], [.str "Totals for Each Income Category"]] ++
  (totals_each_income_category txns).map
    (fun p => [.str p.1, .str (formatCents p.2)]) ++
  [[], [.str "Totals for Each Expense Category"]] ++
  (totals_each_expense_category txns).map
    (fun p => [.str p.1, .str (formatCents p.2)]) ++
  [[], [.str "Monthly Income by Category"]] ++
  (monthly_income_categories txns).map
    (fun p => [.str p.1.2, .str (monthLabel p.1.1), .num p.2]) ++
  [[], [.str "Monthly Expenses by Category"]] ++
  (monthly_expenses_categories txns).map
    (fun p => [.str p.1.2, .str (monthLabel p.1.1), .num p.2])

/-- `str.lower()` on the ASCII range, the normalization `main` applies to
categories before constructing a `Transaction`. -/
def normCat (s : String) : String :=
  String.mk (s.data.map Char.toLower)

/-! ## Lemmas about the accumulation loops -/

theorem foldl_amount_eq (ty : String) :
    ∀ (l : List Transaction) (acc : Int),
      l.foldl (fun acc t => if t.txn_type = ty then acc + t.amount else acc) acc
        = acc + ((l.filter (fun t => decide (t.txn_type = ty))).map
            Transaction.amount).sum := by
  intro l
  induction l with
  | nil => intro acc; simp
  | cons t ts ih =>
    intro acc
    by_cases h : t.txn_type = ty <;>
      simp [h, ih, List.filter_cons] <;> omega

theorem foldl_pair_eq :
    ∀ (l : List Transaction) (acc : Int × Int),
      l.foldl
        (fun (p : Int × Int) t =>
          if t.txn_type = "income" then (p.1 + t.amount, p.2)
          else if t.txn_type = "expense" then (p.1, p.2 + t.amount)
          else p) acc
      = (acc.1 + ((l.filter (fun t => decide (t.txn_type = "income"))).map
            Transaction.amount).sum,
         acc.2 + ((l.filter (fun t => decide (t.txn_type = "expense"))).map
            Transaction.amount).sum) := by
  intro l
  induction l with
  | nil => intro acc; simp
  | cons t ts ih =>
    intro acc
    by_cases h1 : t.txn_type = "income"
    · have h2 : ¬ t.txn_type = "expense" := by rw [h1]; decide
      simp [h1, h2, ih, List.filter_cons, Prod.ext_iff]
      omega
    · by_cases h2 : t.txn_type = "expense" <;>
        simp [h1, h2, ih, List.filter_cons, Prod.ext_iff] <;> omega

theorem category_filter_eq_filter (txns : FinanceTracker) (c : String) :
    category_filter txns c = txns.filter (fun t => decide (t.category = c)) := by
  have key : ∀ (l acc : List Transaction),
      l.foldl (fun acc t => if t.category = c then acc ++ [t] else acc) acc
        = acc ++ l.filter (fun t => decide (t.category = c)) := by
    intro l
    induction l with
    | nil => intro acc; simp
    | cons t ts ih =>
      intro acc
      by_cases h : t.category = c <;> simp [h, ih, List.filter_cons]
  simpa [category_filter] using key txns []

/-! ## Lemmas about the grouping dictionaries -/

theorem addToGroup_map_fst {κ : Type} [DecidableEq κ]
    (l : List (κ × Int)) (k : κ) (v : Int) :
    (addToGroup l k v).map Prod.fst
      = if k ∈ l.map Prod.fst then l.map Prod.fst
        else l.map Prod.fst ++ [k] := by
  induction l with
  | nil => simp [addToGroup]
  | cons p rest ih =>
    rcases p with ⟨k', v'⟩
    by_cases h : k' = k
    · subst h; simp [addToGroup]
    · have h' : ¬ k = k' := fun hh => h hh.symm
      by_cases hm : k ∈ rest.map Prod.fst <;>
        simp [addToGroup, h, h', hm, ih]

theorem addToGroup_nodup_fst {κ : Type} [DecidableEq κ]
    {l : List (κ × Int)} (k : κ) (v : Int) (h : (l.map Prod.fst).Nodup) :
    ((addToGroup l k v).map Prod.fst).Nodup := by
  rw [addToGroup_map_fst]
  by_cases hm : k ∈ l.map Prod.fst
  · simpa [hm]
  · simp [hm, List.nodup_append, h]

theorem addToGroup_snd_sum {κ : Type} [DecidableEq κ]
    (l : List (κ × Int)) (k : κ) (v : Int) :
    ((addToGroup l k v).map Prod.snd).sum = ((l.map Prod.snd).sum) + v := by
  induction l with
  | nil => simp [addToGroup]
  | cons p rest ih =>
    rcases p with ⟨k', v'⟩
    by_cases h : k' = k <;> simp [addToGroup, h, ih] <;> omega

theorem groupFold_nodup_fst {κ : Type} [DecidableEq κ]
    (f : Transaction → Option (κ × Int)) (txns : List Transaction) :
    ((groupFold f txns).map Prod.fst).Nodup := by
  have key : ∀ (l : List Transaction) (acc : List (κ × Int)),
      (acc.map Prod.fst).Nodup →
      ((l.foldl (groupStep f) acc).map Prod.fst).Nodup := by
    intro l
    induction l with
    | nil => intro acc h; simpa
    | cons t ts ih =>
      intro acc h
      cases hf : f t with
      | none => simp only [List.foldl_cons, groupStep, hf]; exact ih acc h
      | some p =>
        rcases p with ⟨k, v⟩
        simp only [List.foldl_cons, groupStep, hf]
        exact ih _ (addToGroup_nodup_fst k v h)
  exact key txns [] (by simp)

theorem groupFold_key_origin {κ : Type} [DecidableEq κ]
    (f : Transaction → Option (κ × Int)) (txns : List Transaction) :
    ∀ x ∈ (groupFold f txns).map Prod.fst,
      ∃ t ∈ txns, ∃ v, f t = some (x, v) := by
  have key : ∀ (l : List Transaction) (acc : List (κ × Int)),
      ∀ x ∈ ((l.foldl (groupStep f) acc).map Prod.fst),
        x ∈ acc.map Prod.fst ∨ ∃ t ∈ l, ∃ v, f t = some (x, v) := by
    intro l
    induction l with
    | nil => intro acc x hx; exact Or.inl hx
    | cons t ts ih =>
      intro acc x hx
      simp only [List.foldl_cons, groupStep] at hx
      cases hf : f t with
      | none =>
        rw [hf] at hx
        rcases ih acc x hx with h | ⟨t', ht', v, hv⟩
        · exact Or.inl h
        · exact Or.inr ⟨t', List.mem_cons_of_mem _ ht', v, hv⟩
      | some p =>
        rcases p with ⟨k, v⟩
        rw [hf] at hx
        rcases ih _ x hx with h | ⟨t', ht', v', hv'⟩
        · rw [addToGroup_map_fst] at h
          by_cases hm : k ∈ acc.map Prod.fst
          · rw [if_pos hm] at h; exact Or.inl h
          · rw [if_neg hm] at h
            rcases List.mem_append.mp h with h | h
            · exact Or.inl h
            · have : x = k := by simpa using h
              subst this
              exact Or.inr ⟨t, List.mem_cons_self t ts, v, hf⟩
        · exact Or.inr ⟨t', List.mem_cons_of_mem _ ht', v', hv'⟩
  intro x hx
  rcases key txns [] x (by simpa [groupFold] using hx) with h | h
  · simp at h
  · exact h

/-! ## Lemmas about association-list lookup -/

theorem mem_of_lookupKey {κ β : Type} [DecidableEq κ]
    {k : κ} {v : β} : ∀ {l : List (κ × β)}, lookupKey k l = some v → (k, v) ∈ l := by
  intro l
  induction l with
  | nil => intro h; simp [lookupKey] at h
  | cons p rest ih =>
    rcases p with ⟨k', v'⟩
    intro h
    by_cases hk : k' = k
    · subst hk
      simp [lookupKey] at h
      simp [h]
    · simp [lookupKey, hk] at h
      exact List.mem_cons_of_mem _ (ih h)

theorem lookupKey_eq_none_iff {κ β : Type} [DecidableEq κ]
    {k : κ} : ∀ {l : List (κ × β)}, lookupKey k l = none ↔ k ∉ l.map Prod.fst := by
  intro l
  induction l with
  | nil => simp [lookupKey]
  | cons p rest ih =>
    rcases p with ⟨k', v'⟩
    by_cases hk : k' = k
    · subst hk; simp [lookupKey]
    · have h' : ¬ k = k' := fun hh => hk hh.symm
      simp [lookupKey, hk, h', ih]

theorem lookupKey_of_mem {κ β : Type} [DecidableEq κ]
    {k : κ} {v : β} : ∀ {l : List (κ × β)}, (l.map Prod.fst).Nodup →
      (k, v) ∈ l → lookupKey k l = some v := by
  intro l
  induction l with
  | nil => intro _ h; simp at h
  | cons p rest ih =>
    rcases p with ⟨k', v'⟩
    intro hnd hm
    rcases List.mem_cons.mp hm with h | h
    · rcases Prod.mk.injEq .. ▸ h with ⟨h1, h2⟩
      simp [lookupKey, h1.symm, h2]
    · have hk : ¬ k' = k := by
        intro hkeq; subst hkeq
        have hmem : k' ∈ rest.map Prod.fst :=
          List.mem_map.mpr ⟨(k', v), h, rfl⟩
        rw [List.map_cons, List.nodup_cons] at hnd
        exact hnd.1 hmem
      simp only [lookupKey, if_neg hk]
      apply ih ?_ h
      rw [List.map_cons, List.nodup_cons] at hnd
      exact hnd.2

theorem lookupKey_perm {κ β : Type} [DecidableEq κ]
    {l₁ l₂ : List (κ × β)} (h : l₁.Perm l₂)
    (hnd : (l₁.map Prod.fst).Nodup) (k : κ) :
    lookupKey k l₁ = lookupKey k l₂ := by
  have hnd₂ : (l₂.map Prod.fst).Nodup := ((h.map Prod.fst).nodup_iff).mp hnd
  cases hv : lookupKey k l₁ with
  | some v =>
    exact (lookupKey_of_mem hnd₂ (h.mem_iff.mp (mem_of_lookupKey hv))).symm
  | none =>
    rw [lookupKey_eq_none_iff] at hv
    rw [eq_comm, lookupKey_eq_none_iff]
    intro hc
    exact hv (((h.map Prod.fst).mem_iff).mpr hc)

/-! ## Sums of grouped values -/

theorem totals_groupFold_snd_sum (ty : String) (txns : List Transaction) :
    ((groupFold
        (fun t => if t.txn_type = ty then some (t.category, t.amount) else none)
        txns).map Prod.snd).sum
      = ((txns.filter (fun t => decide (t.txn_type = ty))).map
          Transaction.amount).sum := by
  have key : ∀ (l : List Transaction) (acc : List (String × Int)),
      ((l.foldl
          (groupStep
            (fun t => if t.txn_type = ty then some (t.category, t.amount) else none))
          acc).map Prod.snd).sum
        = ((acc.map Prod.snd).sum)
          + ((l.filter (fun t => decide (t.txn_type = ty))).map
              Transaction.amount).sum := by
    intro l
    induction l with
    | nil => intro acc; simp
    | cons t ts ih =>
      intro acc
      by_cases h : t.txn_type = ty <;>
        simp [groupStep, h, ih, addToGroup_snd_sum, List.filter_cons] <;> omega
  simpa [groupFold] using key txns []

/-! ## The net-savings construction -/

theorem foldl_append_lookup (exp : List ((Nat × Nat) × Int)) :
    ∀ (l acc : List ((Nat × Nat) × Int)),
      l.foldl (netStep exp) acc
      = acc ++ l.filterMap
          (fun p => (lookupKey p.1 exp).map (fun ev => (p.1, p.2 - ev))) := by
  intro l
  induction l with
  | nil => intro acc; simp
  | cons p ps ih =>
    intro acc
    cases hl : lookupKey p.1 exp with
    | none => simp [List.foldl_cons, netStep, hl, ih, List.filterMap_cons]
    | some ev => simp [List.foldl_cons, netStep, hl, ih, List.filterMap_cons]

theorem net_map_fst_sublist (exp : List ((Nat × Nat) × Int)) :
    ∀ (inc : List ((Nat × Nat) × Int)),
      ((inc.filterMap
          (fun p => (lookupKey p.1 exp).map (fun ev => (p.1, p.2 - ev)))).map
        Prod.fst).Sublist (inc.map Prod.fst) := by
  intro inc
  induction inc with
  | nil => simp
  | cons p ps ih =>
    cases hl : lookupKey p.1 exp with
    | none =>
      simp only [List.filterMap_cons, hl, List.map_cons]
      exact ih.cons _
    | some ev =>
      simp only [List.filterMap_cons, hl, List.map_cons]
      exact ih.cons₂ _

theorem lookupKey_netRaw (exp : List ((Nat × Nat) × Int)) (k : Nat × Nat) :
    ∀ (inc : List ((Nat × Nat) × Int)), (inc.map Prod.fst).Nodup →
      lookupKey k (inc.filterMap
          (fun p => (lookupKey p.1 exp).map (fun ev => (p.1, p.2 - ev))))
        = (lookupKey k inc).bind
            (fun iv => (lookupKey k exp).map (fun ev => iv - ev)) := by
  intro inc
  induction inc with
  | nil => intro _; simp [lookupKey]
  | cons p ps ih =>
    rcases p with ⟨k', iv'⟩
    intro hnd
    rw [List.map_cons, List.nodup_cons] at hnd
    cases hl : lookupKey k' exp with
    | some ev' =>
      simp only [List.filterMap_cons, hl, Option.map_some']
      by_cases hk : k' = k
      · subst hk
        simp [lookupKey, hl]
      · simp only [lookupKey, if_neg hk]
        exact ih hnd.2
    | none =>
      simp only [List.filterMap_cons, hl, Option.map_none']
      by_cases hk : k' = k
      · subst hk
        have h1 : lookupKey k' (((k', iv') : (Nat × Nat) × Int) :: ps) = some iv' := by
          simp [lookupKey]
        rw [h1, Option.some_bind, hl, Option.map_none']
        rw [lookupKey_eq_none_iff]
        intro hc
        exact hnd.1 ((net_map_fst_sublist exp ps).mem hc)
      · simp only [lookupKey, if_neg hk]
        exact ih hnd.2

/-! ## Nodup keys of the monthly aggregates -/

theorem monthly_basis_nodup_fst (txns : List Transaction) (ty : String) :
    ((monthly_basis txns ty).map Prod.fst).Nodup := by
  unfold monthly_basis
  exact ((List.perm_insertionSort monthEntryLe _).map Prod.fst).nodup_iff.mpr
    (groupFold_nodup_fst _ txns)

/-! ## Claim theorems -/

/-- C2: for every transaction sequence, `calc_current_balance` equals
`get_total_income` minus `get_total_expenses` exactly, up to the 2-decimal
formatting each function applies: there are exact cent values `i` and `e`
such that the three methods return the formatted `i`, `e` and `i - e`. -/
theorem c2_balance_eq_income_minus_expenses (txns : FinanceTracker) :
    ∃ i e : Int,
      get_total_income txns = formatCents i ∧
      get_total_expenses txns = formatCents e ∧
      calc_current_balance txns = formatCents (i - e) := by
  refine ⟨((txns.filter (fun t => decide (t.txn_type = "income"))).map
      Transaction.amount).sum,
    ((txns.filter (fun t => decide (t.txn_type = "expense"))).map
      Transaction.amount).sum, ?_, ?_, ?_⟩
  · unfold get_total_income
    rw [foldl_amount_eq]
    norm_num
  · unfold get_total_expenses
    rw [foldl_amount_eq]
    norm_num
  · simp only [calc_current_balance]
    rw [foldl_pair_eq]
    norm_num

/-- C3: the values of the per-category totals sum to the corresponding
overall total: the same exact cent value `i` underlies `get_total_income`
and the sum over `totals_each_income_category`, and likewise for expenses. -/
theorem c3_category_totals_sum_to_totals (txns : FinanceTracker) :
    ∃ i e : Int,
      get_total_income txns = formatCents i ∧
      ((totals_each_income_category txns).map Prod.snd).sum = i ∧
      get_total_expenses txns = formatCents e ∧
      ((totals_each_expense_category txns).map Prod.snd).sum = e := by
  refine ⟨((txns.filter (fun t => decide (t.txn_type = "income"))).map
      Transaction.amount).sum,
    ((txns.filter (fun t => decide (t.txn_type = "expense"))).map
      Transaction.amount).sum, ?_, ?_, ?_, ?_⟩
  · unfold get_total_income
    rw [foldl_amount_eq]
    norm_num
  · unfold totals_each_income_category totals_each_txn_type_category
    rw [← totals_groupFold_snd_sum "income" txns]
    exact ((List.perm_insertionSort catEntryLe _).map Prod.snd).sum_eq
  · unfold get_total_expenses
    rw [foldl_amount_eq]
    norm_num
  · unfold totals_each_expense_category totals_each_txn_type_category
    rw [← totals_groupFold_snd_sum "expense" txns]
    exact ((List.perm_insertionSort catEntryLe _).map Prod.snd).sum_eq

/-- C6: `category_filter` returns exactly the transactions whose category
equals the argument (literal equality of the stored, case-normalized category
strings), with multiplicity, in the original storage order: it is the order-
and duplicate-preserving sublist of the storage list selected by that
predicate. -/
theorem c6_category_filter_exact_in_order (txns : FinanceTracker) (c : String) :
    category_filter txns c = txns.filter (fun t => decide (t.category = c)) ∧
    (category_filter txns c).Sublist txns ∧
    ∀ t, t ∈ category_filter txns c ↔ t ∈ txns ∧ t.category = c := by
  refine ⟨category_filter_eq_filter txns c, ?_, ?_⟩
  · rw [category_filter_eq_filter]
    exact List.filter_sublist txns
  · intro t
    rw [category_filter_eq_filter, List.mem_filter]
    simp

/-- C1: `monthly_net_savings` is the key intersection of `monthly_income` and
`monthly_expenses`: a month key is present iff it is present in both, and its
value is the income total minus the expense total for that key; a month
present in only one of the two maps is absent. -/
theorem c1_net_savings_is_intersection (txns : List Transaction) (k : Nat × Nat) :
    (k ∈ (monthly_net_savings txns).map Prod.fst ↔
      k ∈ (monthly_income txns).map Prod.fst ∧
      k ∈ (monthly_expenses txns).map Prod.fst) ∧
    lookupKey k (monthly_net_savings txns)
      = (lookupKey k (monthly_income txns)).bind
          (fun iv => (lookupKey k (monthly_expenses txns)).map (fun ev => iv - ev)) := by
  have hndinc : ((monthly_income txns).map Prod.fst).Nodup :=
    monthly_basis_nodup_fst txns "income"
  have hraw : monthly_net_savings txns
      = List.insertionSort monthEntryLe
          ((monthly_income txns).filterMap
            (fun p => (lookupKey p.1 (monthly_expenses txns)).map
              (fun ev => (p.1, p.2 - ev)))) := by
    unfold monthly_net_savings
    rw [foldl_append_lookup]
    simp
  have hndraw : (((monthly_income txns).filterMap
      (fun p => (lookupKey p.1 (monthly_expenses txns)).map
        (fun ev => (p.1, p.2 - ev)))).map Prod.fst).Nodup :=
    (net_map_fst_sublist (monthly_expenses txns) (monthly_income txns)).nodup hndinc
  have hperm := List.perm_insertionSort monthEntryLe
    ((monthly_income txns).filterMap
      (fun p => (lookupKey p.1 (monthly_expenses txns)).map
        (fun ev => (p.1, p.2 - ev))))
  have hndsort : ((List.insertionSort monthEntryLe
      ((monthly_income txns).filterMap
        (fun p => (lookupKey p.1 (monthly_expenses txns)).map
          (fun ev => (p.1, p.2 - ev))))).map Prod.fst).Nodup :=
    ((hperm.map Prod.fst).nodup_iff).mpr hndraw
  have hlk : lookupKey k (monthly_net_savings txns)
      = (lookupKey k (monthly_income txns)).bind
          (fun iv => (lookupKey k (monthly_expenses txns)).map (fun ev => iv - ev)) := by
    rw [hraw, lookupKey_perm hperm hndsort k]
    exact lookupKey_netRaw (monthly_expenses txns) k (monthly_income txns) hndinc
  refine ⟨?_, hlk⟩
  have hmem : ∀ (l : List ((Nat × Nat) × Int)),
      k ∈ l.map Prod.fst ↔ ¬ lookupKey k l = none := by
    intro l
    rw [lookupKey_eq_none_iff]
    exact not_not.symm
  rw [hmem, hmem, hmem, hlk]
  cases hli : lookupKey k (monthly_income txns) <;>
    cases hle : lookupKey k (monthly_expenses txns) <;> simp

/-! ## Strict ordering of aggregate keys -/

theorem monthKeyLt_of_le_ne {a b : Nat × Nat}
    (h1 : monthKeyLe a b) (h2 : a ≠ b) : monthKeyLt a b := by
  rcases a with ⟨x, y⟩; rcases b with ⟨z, w⟩
  unfold monthKeyLe at h1
  unfold monthKeyLt
  simp only [Ne, Prod.mk.injEq] at h2
  omega

theorem pairwise_monthKeyLt_of_sorted_nodup {l : List ((Nat × Nat) × Int)}
    (hs : l.Pairwise monthEntryLe) (hn : (l.map Prod.fst).Nodup) :
    (l.map Prod.fst).Pairwise monthKeyLt := by
  have hn' : l.Pairwise (fun a b => a.1 ≠ b.1) := List.pairwise_map.mp hn
  exact List.pairwise_map.mpr
    ((hs.and hn').imp (fun h => monthKeyLt_of_le_ne h.1 h.2))

theorem pairwise_strLt_of_sorted_nodup {l : List (String × Int)}
    (hs : l.Pairwise catEntryLe) (hn : (l.map Prod.fst).Nodup) :
    (l.map Prod.fst).Pairwise (· < ·) := by
  have hn' : l.Pairwise (fun a b => a.1 ≠ b.1) := List.pairwise_map.mp hn
  exact List.pairwise_map.mpr
    ((hs.and hn').imp (fun h => lt_of_le_of_ne h.1 h.2))

theorem totals_each_nodup_fst (txns : List Transaction) (ty : String) :
    ((totals_each_txn_type_category txns ty).map Prod.fst).Nodup := by
  unfold totals_each_txn_type_category
  exact ((List.perm_insertionSort catEntryLe _).map Prod.fst).nodup_iff.mpr
    (groupFold_nodup_fst _ txns)

/-- C5: the key sequence of the monthly aggregates is strictly increasing in
lexicographic (year, month) order, and under the data-model invariant that
stored categories are case-normalized, the key sequence of the per-category
totals is strictly increasing alphabetically (code-point order on the
normalized strings) and consists of case-normalized strings. -/
theorem c5_aggregate_key_orders (txns : List Transaction)
    (hnorm : ∀ t ∈ txns, normCat t.category = t.category) :
    ((monthly_income txns).map Prod.fst).Pairwise monthKeyLt ∧
    ((monthly_expenses txns).map Prod.fst).Pairwise monthKeyLt ∧
    ((totals_each_income_category txns).map Prod.fst).Pairwise (· < ·) ∧
    ((totals_each_expense_category txns).map Prod.fst).Pairwise (· < ·) ∧
    (∀ c ∈ (totals_each_income_category txns).map Prod.fst, normCat c = c) ∧
    (∀ c ∈ (totals_each_expense_category txns).map Prod.fst, normCat c = c) := by
  have hm : ∀ ty, ((monthly_basis txns ty).map Prod.fst).Pairwise monthKeyLt := by
    intro ty
    refine pairwise_monthKeyLt_of_sorted_nodup ?_ (monthly_basis_nodup_fst txns ty)
    unfold monthly_basis
    exact List.sorted_insertionSort monthEntryLe _
  have hc : ∀ ty, ((totals_each_txn_type_category txns ty).map Prod.fst).Pairwise
      (· < ·) := by
    intro ty
    refine pairwise_strLt_of_sorted_nodup ?_ (totals_each_nodup_fst txns ty)
    unfold totals_each_txn_type_category
    exact List.sorted_insertionSort catEntryLe _
  have hn : ∀ ty, ∀ c ∈ (totals_each_txn_type_category txns ty).map Prod.fst,
      normCat c = c := by
    intro ty c hcmem
    have hcraw : c ∈ (groupFold
        (fun t => if t.txn_type = ty then some (t.category, t.amount) else none)
        txns).map Prod.fst := by
      unfold totals_each_txn_type_category at hcmem
      exact (((List.perm_insertionSort catEntryLe _).map Prod.fst).mem_iff).mp hcmem
    rcases groupFold_key_origin _ txns c hcraw with ⟨t, ht, v, hv⟩
    by_cases hty : t.txn_type = ty
    · simp only [if_pos hty, Option.some.injEq, Prod.mk.injEq] at hv
      rw [← hv.1]
      exact hnorm t ht
    · simp [hty] at hv
  exact ⟨hm "income", hm "expense", hc "income", hc "expense", hn "income",
    hn "expense"⟩

/-! ## Concrete sample data -/

/-- A small concrete ledger used by the witnesses: two months, two income
categories, lowercase category names (the case the boundary produces). -/
def sampleTxns : List Transaction :=
  [⟨⟨2024, 1, 5⟩, "income", 100000, "salary"⟩,
   ⟨⟨2024, 1, 10⟩, "expense", 20000, "food"⟩,
   ⟨⟨2024, 2, 1⟩, "income", 100000, "salary"⟩,
   ⟨⟨2024, 2, 3⟩, "income", 30000, "bonus"⟩]

/-- A report over `sampleTxns` that does not use a file. -/
def sampleReport : Report :=
  { filename := "", tracker := sampleTxns, use_file := false, fileTxns := [] }

/-- Witness for C5 at `sampleTxns`: the hypothesis (categories are
case-normalized) holds and the ordering conclusions follow. -/
theorem c5_aggregate_key_orders_witness :
    (∀ t ∈ sampleTxns, normCat t.category = t.category) ∧
    (((monthly_income sampleTxns).map Prod.fst).Pairwise monthKeyLt ∧
     ((monthly_expenses sampleTxns).map Prod.fst).Pairwise monthKeyLt ∧
     ((totals_each_income_category sampleTxns).map Prod.fst).Pairwise (· < ·) ∧
     ((totals_each_expense_category sampleTxns).map Prod.fst).Pairwise (· < ·) ∧
     (∀ c ∈ (totals_each_income_category sampleTxns).map Prod.fst, normCat c = c) ∧
     (∀ c ∈ (totals_each_expense_category sampleTxns).map Prod.fst, normCat c = c)) :=
  ⟨by decide, c5_aggregate_key_orders sampleTxns (by decide)⟩

/-! ## Date-filter semantics -/

theorem dateMatchE_single {s1 : String} {d1 : Date}
    (h : parseDate s1 = some d1) (t : Transaction) :
    dateMatchE s1 none t = .ok (decide (t.date = d1)) := by
  simp [dateMatchE, h]

theorem dateMatchE_range {s1 s2 : String} {d1 d2 : Date}
    (h1 : parseDate s1 = some d1) (h2 : parseDate s2 = some d2) (t : Transaction) :
    dateMatchE s1 (some s2) t
      = .ok (decide (dateLe d1 t.date) && decide (dateLe t.date d2)) := by
  simp [dateMatchE, h1, h2]

theorem dateGuardAux_ok (g : Transaction → Bool) (date1 : String)
    (date2 : Option String) (m : Transaction → Bool)
    (hm : ∀ t, dateMatchE date1 date2 t = .ok (m t)) :
    ∀ txns : List Transaction,
      dateGuardAux g date1 date2 txns
        = .ok (txns.filter (fun t => g t && m t)) := by
  intro txns
  induction txns with
  | nil => simp [dateGuardAux]
  | cons t ts ih =>
    by_cases hg : g t
    · cases hmt : m t <;>
        simp [dateGuardAux, hg, hm t, ih, hmt, List.filter_cons]
    · simp [dateGuardAux, hg, ih, List.filter_cons]

/-- C4: `date_filter` with the end date omitted returns exactly the
transactions whose date equals the (parsed) start date; with both dates it
returns exactly those with `start ≤ date ≤ end` inclusive; both results are
sorted ascending by date; and a reversed range (`start > end`) gives the
empty list rather than an error. -/
theorem c4_date_filter_semantics (txns : FinanceTracker) (s1 s2 : String)
    (d1 d2 : Date) (h1 : parseDate s1 = some d1) (h2 : parseDate s2 = some d2) :
    (∃ l, date_filter txns s1 none = .ok l ∧
        l.Perm (txns.filter (fun t => decide (t.date = d1))) ∧
        l.Pairwise txnDateLe) ∧
    (∃ l, date_filter txns s1 (some s2) = .ok l ∧
        l.Perm (txns.filter (fun t =>
          decide (dateLe d1 t.date) && decide (dateLe t.date d2))) ∧
        l.Pairwise txnDateLe ∧
        (dateLt d2 d1 → l = [])) := by
  constructor
  · refine ⟨List.insertionSort txnDateLe
        (txns.filter (fun t => decide (t.date = d1))), ?_, ?_, ?_⟩
    · unfold date_filter
      rw [dateGuardAux_ok _ _ _ _ (dateMatchE_single h1) txns]
      simp [Except.map]
    · exact List.perm_insertionSort _ _
    · exact List.sorted_insertionSort _ _
  · refine ⟨List.insertionSort txnDateLe
        (txns.filter (fun t =>
          decide (dateLe d1 t.date) && decide (dateLe t.date d2))), ?_, ?_, ?_, ?_⟩
    · unfold date_filter
      rw [dateGuardAux_ok _ _ _ _ (dateMatchE_range h1 h2) txns]
      simp [Except.map]
    · exact List.perm_insertionSort _ _
    · exact List.sorted_insertionSort _ _
    · intro hlt
      have hemp : txns.filter (fun t =>
          decide (dateLe d1 t.date) && decide (dateLe t.date d2)) = [] := by
        rw [List.filter_eq_nil_iff]
        intro t _
        simp only [Bool.and_eq_true, decide_eq_true_eq, not_and]
        intro ha hb
        exact (dateLt_iff_not_le.mp hlt) (dateLe_trans ha hb)
      rw [hemp]
      rfl

/-- Witness for C4 at `sampleTxns` with the range 2024-01-05 to 2024-01-31. -/
theorem c4_date_filter_semantics_witness :
    parseDate "2024-01-05" = some ⟨2024, 1, 5⟩ ∧
    parseDate "2024-01-31" = some ⟨2024, 1, 31⟩ ∧
    ((∃ l, date_filter sampleTxns "2024-01-05" none = .ok l ∧
        l.Perm (sampleTxns.filter (fun t => decide (t.date = ⟨2024, 1, 5⟩))) ∧
        l.Pairwise txnDateLe) ∧
     (∃ l, date_filter sampleTxns "2024-01-05" (some "2024-01-31") = .ok l ∧
        l.Perm (sampleTxns.filter (fun t =>
          decide (dateLe ⟨2024, 1, 5⟩ t.date) &&
          decide (dateLe t.date ⟨2024, 1, 31⟩))) ∧
        l.Pairwise txnDateLe ∧
        (dateLt ⟨2024, 1, 31⟩ ⟨2024, 1, 5⟩ → l = []))) :=
  ⟨by decide, by decide,
    c4_date_filter_semantics sampleTxns "2024-01-05" "2024-01-31"
      ⟨2024, 1, 5⟩ ⟨2024, 1, 31⟩ (by decide) (by decide)⟩

/-! ## Error behaviour of the filters and aggregates -/

theorem groupFold_eq_nil_of_none {κ : Type} [DecidableEq κ]
    (f : Transaction → Option (κ × Int)) (txns : List Transaction)
    (h : ∀ t ∈ txns, f t = none) : groupFold f txns = [] := by
  have key : ∀ (l : List Transaction) (acc : List (κ × Int)),
      (∀ t ∈ l, f t = none) → l.foldl (groupStep f) acc = acc := by
    intro l
    induction l with
    | nil => intro acc _; rfl
    | cons t ts ih =>
      intro acc hl
      simp only [List.foldl_cons, groupStep, hl t (List.mem_cons_self t ts)]
      exact ih acc (fun t' ht' => hl t' (List.mem_cons_of_mem _ ht'))
  exact key txns [] h

/-- C7 counterexample: a malformed date string passed to a Ledger filter is
parsed inside the filter (`datetime.strptime` inside `date_filter`), so the
Ledger operation itself fails — it is not intercepted at the
Transaction-construction boundary.  On a non-empty ledger the call raises. -/
theorem c7_counterexample :
    date_filter sampleTxns "garbage" none = .error () ∧
    date_category_filter sampleTxns "garbage" none "salary" = .error () :=
  ⟨rfl, rfl⟩

/-- C7 (amended): the Ledger filter operations never fail when their date
arguments are well-formed date strings, and absence of matches yields an
empty result rather than an error; but a malformed date string fails inside
the Ledger filter itself (see the counterexample), not at the
Transaction-construction boundary. -/
theorem c7_filters_total_on_valid_dates (txns : FinanceTracker)
    (c s1 s2 : String) (d1 d2 : Date)
    (h1 : parseDate s1 = some d1) (h2 : parseDate s2 = some d2) :
    (∃ l, date_filter txns s1 none = .ok l) ∧
    (∃ l, date_filter txns s1 (some s2) = .ok l) ∧
    (∃ l, date_income_filter txns s1 (some s2) = .ok l) ∧
    (∃ l, date_expense_filter txns s1 (some s2) = .ok l) ∧
    (∃ l, date_category_filter txns s1 (some s2) c = .ok l) ∧
    ((∀ t ∈ txns, ¬(dateLe d1 t.date ∧ dateLe t.date d2)) →
      date_filter txns s1 (some s2) = .ok []) ∧
    ((∀ t ∈ txns, t.category ≠ c) → category_filter txns c = []) := by
  refine ⟨?_, ?_, ?_, ?_, ?_, ?_, ?_⟩
  · unfold date_filter
    rw [dateGuardAux_ok _ _ _ _ (dateMatchE_single h1) txns]
    exact ⟨_, rfl⟩
  · unfold date_filter
    rw [dateGuardAux_ok _ _ _ _ (dateMatchE_range h1 h2) txns]
    exact ⟨_, rfl⟩
  · unfold date_income_filter date_filter_by_type
    rw [dateGuardAux_ok _ _ _ _ (dateMatchE_range h1 h2) txns]
    exact ⟨_, rfl⟩
  · unfold date_expense_filter date_filter_by_type
    rw [dateGuardAux_ok _ _ _ _ (dateMatchE_range h1 h2) txns]
    exact ⟨_, rfl⟩
  · unfold date_category_filter
    rw [dateGuardAux_ok _ _ _ _ (dateMatchE_range h1 h2) txns]
    exact ⟨_, rfl⟩
  · intro hnone
    unfold date_filter
    rw [dateGuardAux_ok _ _ _ _ (dateMatchE_range h1 h2) txns]
    have hemp : txns.filter (fun t => (fun _ => true) t &&
        (decide (dateLe d1 t.date) && decide (dateLe t.date d2))) = [] := by
      rw [List.filter_eq_nil_iff]
      intro t ht
      simp only [Bool.true_and, Bool.and_eq_true, decide_eq_true_eq, not_and]
      intro ha hb
      exact hnone t ht ⟨ha, hb⟩
    rw [hemp]
    rfl
  · intro hnone
    rw [category_filter_eq_filter, List.filter_eq_nil_iff]
    intro t ht
    simp only [decide_eq_true_eq]
    exact hnone t ht

/-- Witness for the amended C7 at `sampleTxns`. -/
theorem c7_filters_total_on_valid_dates_witness :
    parseDate "2024-01-05" = some ⟨2024, 1, 5⟩ ∧
    parseDate "2024-01-31" = some ⟨2024, 1, 31⟩ ∧
    ((∃ l, date_filter sampleTxns "2024-01-05" none = .ok l) ∧
     (∃ l, date_filter sampleTxns "2024-01-05" (some "2024-01-31") = .ok l) ∧
     (∃ l, date_income_filter sampleTxns "2024-01-05" (some "2024-01-31") = .ok l) ∧
     (∃ l, date_expense_filter sampleTxns "2024-01-05" (some "2024-01-31") = .ok l) ∧
     (∃ l, date_category_filter sampleTxns "2024-01-05" (some "2024-01-31") "travel"
        = .ok l) ∧
     ((∀ t ∈ sampleTxns,
        ¬(dateLe ⟨2024, 1, 5⟩ t.date ∧ dateLe t.date ⟨2024, 1, 31⟩)) →
       date_filter sampleTxns "2024-01-05" (some "2024-01-31") = .ok []) ∧
     ((∀ t ∈ sampleTxns, t.category ≠ "travel") →
       category_filter sampleTxns "travel" = [])) :=
  ⟨by decide, by decide,
    c7_filters_total_on_valid_dates sampleTxns "travel" "2024-01-05" "2024-01-31"
      ⟨2024, 1, 5⟩ ⟨2024, 1, 31⟩ (by decide) (by decide)⟩

/-- C8 counterexample: an invalid kind passed to an aggregate call does not
fail fast — the call returns normally, with the empty aggregate map (the
`txn.txn_type == txn_type` test simply never matches). -/
theorem c8_counterexample :
    monthly_basis sampleTxns "banana" = [] ∧
    totals_each_txn_type_category sampleTxns "banana" = [] := by
  decide

/-- C8 (amended): an invalid kind (neither "income" nor "expense") passed to
an aggregate over a ledger whose transactions all carry valid kinds yields
the empty aggregate map, silently — no failure occurs. -/
theorem c8_invalid_kind_returns_empty (txns : List Transaction) (k : String)
    (hk1 : k ≠ "income") (hk2 : k ≠ "expense")
    (hv : ∀ t ∈ txns, t.txn_type = "income" ∨ t.txn_type = "expense") :
    monthly_basis txns k = [] ∧
    monthly_categories_basis txns k = [] ∧
    totals_each_txn_type_category txns k = [] := by
  have hne : ∀ t ∈ txns, ¬ t.txn_type = k := by
    intro t ht heq
    rcases hv t ht with h | h
    · exact hk1 (heq ▸ h)
    · exact hk2 (heq ▸ h)
  refine ⟨?_, ?_, ?_⟩
  · unfold monthly_basis
    rw [groupFold_eq_nil_of_none _ txns (fun t ht => if_neg (hne t ht))]
    rfl
  · unfold monthly_categories_basis
    rw [groupFold_eq_nil_of_none _ txns (fun t ht => if_neg (hne t ht))]
    rfl
  · unfold totals_each_txn_type_category
    rw [groupFold_eq_nil_of_none _ txns (fun t ht => if_neg (hne t ht))]
    rfl

/-- Witness for the amended C8 at `sampleTxns` with the invalid kind "banana". -/
theorem c8_invalid_kind_returns_empty_witness :
    ("banana" ≠ "income") ∧ ("banana" ≠ "expense") ∧
    (∀ t ∈ sampleTxns, t.txn_type = "income" ∨ t.txn_type = "expense") ∧
    (monthly_basis sampleTxns "banana" = [] ∧
     monthly_categories_basis sampleTxns "banana" = [] ∧
     totals_each_txn_type_category sampleTxns "banana" = []) :=
  ⟨by decide, by decide, by decide,
    c8_invalid_kind_returns_empty sampleTxns "banana" (by decide) (by decide)
      (by decide)⟩

/-! ## Report layout and state effects -/

/-- C9 counterexample: in the full analysis report over `sampleReport`, the
first monthly-net-savings body row (row index 5) renders its month label as
"January 2024:" — with a trailing colon — while the claim requires every
month label to be exactly "<MonthName> <Year>", i.e. "January 2024". -/
theorem c9_counterexample :
    (export_analysis_rows sampleReport).get? 5
        = some [Cell.str "January 2024:", Cell.num 80000] ∧
    monthLabel (2024, 1) = "January 2024" ∧
    ("January 2024:" : String) ≠ "January 2024" := by
  refine ⟨?_, by decide, by decide⟩
  decide

/-- C9 (amended): `export_analysis` emits, after the balance / total-income /
total-expenses rows, its seven sections in the fixed order monthly net
savings, monthly income, monthly expenses, income totals by category, expense
totals by category, monthly income by category, monthly expenses by category,
each section preceded by a blank separator row and a header row; month labels
render as "<MonthName> <Year>:" (with a trailing colon) in the monthly net
savings and monthly income sections, and as "<MonthName> <Year>" in the
monthly expenses and the two by-category sections. -/
theorem c9_export_layout (r : Report) :
    ∃ s1 s2 s3 s4 s5 s6 s7 : List (List Cell),
      export_analysis_rows r =
        [[Cell.str "Current Balance:", Cell.str (calc_current_balance r.sync.tracker)],
         [Cell.str "Total Income:", Cell.str (get_total_income r.sync.tracker)],
         [Cell.str "Total Expenses:", Cell.str (get_total_expenses r.sync.tracker)],
         [], [Cell.str "Monthly Net Savings"]] ++ s1 ++
        [[], [Cell.str "Monthly Income"]] ++ s2 ++
        [[], [Cell.str "Monthly Expenses"]] ++ s3 ++
        [[], [Cell.str "Totals for Each Income Category"]] ++ s4 ++
        [[], [Cell.str "Totals for Each Expense Category"]] ++ s5 ++
        [[], [Cell.str "Monthly Income by Category"]] ++ s6 ++
        [[], [Cell.str "Monthly Expenses by Category"]] ++ s7 ∧
      (∀ row ∈ s1, ∃ k v, row = [Cell.str (monthLabel k ++ ":"), Cell.num v]) ∧
      (∀ row ∈ s2, ∃ k v, row = [Cell.str (monthLabel k ++ ":"), Cell.num v]) ∧
      (∀ row ∈ s3, ∃ k v, row = [Cell.str (monthLabel k), Cell.num v]) ∧
      (∀ row ∈ s4, ∃ c v, row = [Cell.str c, Cell.str (formatCents v)]) ∧
      (∀ row ∈ s5, ∃ c v, row = [Cell.str c, Cell.str (formatCents v)]) ∧
      (∀ row ∈ s6, ∃ c k v, row = [Cell.str c, Cell.str (monthLabel k), Cell.num v]) ∧
      (∀ row ∈ s7, ∃ c k v, row = [Cell.str c, Cell.str (monthLabel k), Cell.num v]) := by
  refine ⟨_, _, _, _, _, _, _, rfl, ?_, ?_, ?_, ?_, ?_, ?_, ?_⟩
  · rintro row hrow
    rcases List.mem_map.mp hrow with ⟨p, _, rfl⟩
    exact ⟨p.1, p.2, rfl⟩
  · rintro row hrow
    rcases List.mem_map.mp hrow with ⟨p, _, rfl⟩
    exact ⟨p.1, p.2, rfl⟩
  · rintro row hrow
    rcases List.mem_map.mp hrow with ⟨p, _, rfl⟩
    exact ⟨p.1, p.2, rfl⟩
  · rintro row hrow
    rcases List.mem_map.mp hrow with ⟨p, _, rfl⟩
    exact ⟨p.1, p.2, rfl⟩
  · rintro row hrow
    rcases List.mem_map.mp hrow with ⟨p, _, rfl⟩
    exact ⟨p.1, p.2, rfl⟩
  · rintro row hrow
    rcases List.mem_map.mp hrow with ⟨p, _, rfl⟩
    exact ⟨p.1.2, p.1.1, p.2, rfl⟩
  · rintro row hrow
    rcases List.mem_map.mp hrow with ⟨p, _, rfl⟩
    exact ⟨p.1.2, p.1.1, p.2, rfl⟩

/-- C10: with `use_file = False`, every aggregate method of
`ReportingAndAnalysis` leaves the state — in particular the tracker's
transaction sequence, same elements in the same order — unchanged. -/
theorem c10_aggregates_preserve_tracker (r : Report) (h : r.use_file = false) :
    r.monthly_incomeM.2 = r ∧
    r.monthly_expensesM.2 = r ∧
    r.monthly_net_savingsM.2 = r ∧
    r.monthly_income_categoriesM.2 = r ∧
    r.monthly_expenses_categoriesM.2 = r ∧
    r.totals_each_income_categoryM.2 = r ∧
    r.totals_each_expense_categoryM.2 = r ∧
    r.monthly_incomeM.2.tracker = r.tracker := by
  have hs : r.sync = r := by
    unfold Report.sync
    rw [h]
    simp
  refine ⟨?_, ?_, ?_, ?_, ?_, ?_, ?_, ?_⟩ <;>
    simp [Report.monthly_incomeM, Report.monthly_expensesM,
      Report.monthly_basisM, Report.monthly_net_savingsM,
      Report.monthly_income_categoriesM, Report.monthly_expenses_categoriesM,
      Report.monthly_categories_basisM, Report.totals_each_income_categoryM,
      Report.totals_each_expense_categoryM, Report.totals_each_txn_type_categoryM,
      hs]

/-- Witness for C10 at `sampleReport` (which has `use_file = false`). -/
theorem c10_aggregates_preserve_tracker_witness :
    sampleReport.use_file = false ∧
    (sampleReport.monthly_incomeM.2 = sampleReport ∧
     sampleReport.monthly_expensesM.2 = sampleReport ∧
     sampleReport.monthly_net_savingsM.2 = sampleReport ∧
     sampleReport.monthly_income_categoriesM.2 = sampleReport ∧
     sampleReport.monthly_expenses_categoriesM.2 = sampleReport ∧
     sampleReport.totals_each_income_categoryM.2 = sampleReport ∧
     sampleReport.totals_each_expense_categoryM.2 = sampleReport ∧
     sampleReport.monthly_incomeM.2.tracker = sampleReport.tracker) :=
  ⟨rfl, c10_aggregates_preserve_tracker sampleReport rfl⟩
